import Mathlib

/-!
Verification of the Configuration State & Compliance Engine
(`src/python/src/network_automation_agents/tools/configuration.py` together
with the `ToolOutput` envelope from `models/tool_io.py`).

The Python module is shallowly embedded below:

* `ToolOutput` mirrors the success/failure envelope (`ToolOutput.ok` /
  `ToolOutput.fail`); the `details` dictionary is modelled as an association
  list of string pairs, and the unused `code` field (always `None` in this
  module) is omitted.
* Python's `re` module is modelled by the `Regex` AST and a backtracking
  matcher (`matchEnds`) that reproduces Python's leftmost, first-alternative,
  greedy-star preference order.  The audit tool always compiles patterns with
  `re.MULTILINE`, so the anchors `bol`/`eol` have their MULTILINE semantics
  hardwired; the drift tool applies its (non-MULTILINE) ignore patterns only
  to single lines, where the two anchor semantics coincide.
* `difflib.unified_diff` / `SequenceMatcher` are modelled function by function
  (`findLongestMatch`, `getMatchingBlocks`, `getOpcodes`,
  `getGroupedOpcodes`, `unifiedDiff`) with `isjunk=None`.  The autojunk
  popularity heuristic, which only activates for sequences of at least 200
  lines, is not modelled; below that threshold the model coincides with
  difflib.
* The git backend used by `VersionControlTool` is modelled by `GitState`:
  `head` and `index` are trees (path to blob maps), `untracked` is the list
  of untracked working-tree paths, and commit identifiers are drawn from a
  counter.  `Repo.is_dirty(index=True, working_tree=False,
  untracked_files=True)` is `true` iff the staged tree differs from `HEAD` or
  an untracked file exists, exactly as in GitPython.  A `GitCommandError`
  raised by `index.add` or `index.commit` is modelled by the `addRaises` /
  `commitRaises` flags.
-/

/-- Envelope returned by every tool invocation (`models/tool_io.py`).
`fail` carries the error message and the optional structured `details`
dictionary (modelled as an association list; `details=None` becomes `[]`). -/
inductive ToolOutput (α : Type) where
  | ok (data : α)
  | fail (message : String) (details : List (String × String))
deriving DecidableEq, Repr

/-- A Python value as far as this module inspects it: a text string, `None`,
or some other (non-text) structured object.  Structured objects are
abstracted by a numeric token; only their serialized renderings matter. -/
inductive PyVal where
  | vstr (s : String)
  | vnone
  | vother (v : Nat)
deriving DecidableEq, Repr

/-- Association list insert-or-replace (used to model dictionaries, the
filesystem, and git trees). -/
def tblInsert {α : Type} : List (String × α) → String → α → List (String × α)
  | [], k, v => [(k, v)]
  | (k', v') :: t, k, v =>
    if k' = k then (k, v) :: t else (k', v') :: tblInsert t k v

/-- Association list lookup (first binding wins, like a dictionary). -/
def tblLookup {α : Type} : List (String × α) → String → Option α
  | [], _ => none
  | (k', v') :: t, k => if k' = k then some v' else tblLookup t k

/-! ### Regular expressions (model of Python `re`)

`ComplianceAuditTool` compiles each rule pattern with `re.MULTILINE`;
`ConfigDriftDetectionTool` compiles ignore patterns without flags but only
ever applies them to individual lines (which contain no newline), where
MULTILINE and single-line anchor semantics agree. -/

/-- Abstract syntax of the (compiled) regular expressions used by the module.
`cls cs neg` is a character class `[...]` (`neg = true` for `[^...]`);
`bol`/`eol` are `^`/`$` with `re.MULTILINE` semantics. -/
inductive Regex where
  | eps
  | char (c : Char)
  | dot
  | cls (cs : List Char) (neg : Bool)
  | bol
  | eol
  | cat (a b : Regex)
  | alt (a b : Regex)
  | star (a : Regex)
deriving DecidableEq, Repr

/-- Structural size of a regex, used to compute an adequate fuel bound. -/
def rsize : Regex → Nat
  | .cat a b => rsize a + rsize b + 1
  | .alt a b => rsize a + rsize b + 1
  | .star a => rsize a + 1
  | _ => 1

/-- All candidate end positions of a match of `r` starting at position `p` of
`s`, in Python's backtracking preference order (first alternative first,
greedy repetition longest first).  The head of the list is the end position
Python's engine reports.  `fuel` dominates the recursion depth; the bound
used by `reFuel` is adequate, so the `fuel = 0` case is never reached on the
inputs this development evaluates. -/
def matchEnds : Nat → Regex → List Char → Nat → List Nat
  | 0, _, _, _ => []
  | fuel+1, r, s, p =>
    match r with
    | .eps => [p]
    | .char c =>
      match s.get? p with
      | some c' => if c' = c then [p+1] else []
      | none => []
    | .dot =>
      match s.get? p with
      | some c' => if c' = '\n' then [] else [p+1]
      | none => []
    | .cls cs neg =>
      match s.get? p with
      | some c' => if (cs.contains c') != neg then [p+1] else []
      | none => []
    | .bol =>
      if p = 0 then [p] else if s.get? (p-1) = some '\n' then [p] else []
    | .eol =>
      if s.get? p = none then [p] else if s.get? p = some '\n' then [p] else []
    | .cat a b =>
      (matchEnds fuel a s p).flatMap fun q => matchEnds fuel b s q
    | .alt a b => matchEnds fuel a s p ++ matchEnds fuel b s p
    | .star a =>
      ((matchEnds fuel a s p).flatMap fun q =>
        if q = p then [] else matchEnds fuel (.star a) s q) ++ [p]

/-- Fuel adequate for `matchEnds` on `r` over `s` (call-path depth is bounded
by `(length + 2) ^ (rsize + 1)`). -/
def reFuel (r : Regex) (s : List Char) : Nat := (s.length + 2) ^ (rsize r + 1)

/-- End position of the match of `r` at position `p`, if any (Python's
preferred match). -/
def firstMatchEnd (r : Regex) (s : List Char) (p : Nat) : Option Nat :=
  (matchEnds (reFuel r s) r s p).head?

/-- The scan underlying `re.finditer`: non-overlapping matches, scanning left
to right; after an empty match the scan advances one position. Returns
(start, end) pairs. -/
def reScan : Nat → Regex → List Char → Nat → List (Nat × Nat)
  | 0, _, _, _ => []
  | fuel+1, r, s, p =>
    if p ≤ s.length then
      match firstMatchEnd r s p with
      | some q => (p, q) :: reScan fuel r s (if q = p then p + 1 else q)
      | none => reScan fuel r s (p + 1)
    else []

/-- `re.finditer(pattern, text)` with `match.group(0)` extracted: the list of
matched substrings, in order. -/
def reFindAll (r : Regex) (s : String) : List String :=
  (reScan (s.length + 2) r s.data 0).map fun pq =>
    String.mk ((s.data.drop pq.1).take (pq.2 - pq.1))

/-- `pattern.search(text) is not None` (a match exists iff `finditer` yields
at least one match). -/
def reSearch (r : Regex) (s : String) : Bool := !(reFindAll r s).isEmpty

/-- Convenience: the regex matching a literal string. -/
def rlit (s : String) : Regex := s.data.foldr (fun c acc => .cat (.char c) acc) .eps

/-! ### Compliance auditing (`ComplianceAuditTool`) -/

/-- Definition of a compliance rule.  `pattern` is the compiled form of the
rule's regex source text (`re.compile(rule.pattern, re.MULTILINE)`). -/
structure ComplianceRule where
  rule_id : String
  description : String
  pattern : Regex
  mode : String
deriving DecidableEq, Repr

/-- Details for a single compliance violation. -/
structure ComplianceViolation where
  rule_id : String
  rule_description : String
  violating_line : Option String
  violation_type : String
deriving DecidableEq, Repr

/-- Aggregated compliance findings. -/
structure ComplianceReport where
  policy_name : String
  is_compliant : Bool
  violations : List ComplianceViolation
deriving DecidableEq, Repr

/-- The body of the per-rule loop of `ComplianceAuditTool.audit_config`
(lines 242-262): a `required` rule with no match yields one
`missing_required` violation; a `forbidden` rule yields one
`found_forbidden` violation per match, carrying the matched text. -/
def ruleViolations (config_content : String) (rule : ComplianceRule) :
    List ComplianceViolation :=
  let ms := reFindAll rule.pattern config_content
  if rule.mode = "required" ∧ ms.isEmpty then
    [⟨rule.rule_id, rule.description, none, "missing_required"⟩]
  else if rule.mode = "forbidden" ∧ ¬ ms.isEmpty then
    ms.map fun m => ⟨rule.rule_id, rule.description, some m, "found_forbidden"⟩
  else []

/-- Rule resolution (lines 229-239): registered policy rules, else the
injected rule loader (whose raised exceptions become a failure), then
`extra_rules` appended; an empty final rule set is an error.  The error case
carries the failure message and details. -/
def resolveRules (policy_rules : List (String × List ComplianceRule))
    (rule_loader : Option (String → Except String (List ComplianceRule)))
    (policy_name : String) (extra_rules : List ComplianceRule) :
    Except (String × List (String × String)) (List ComplianceRule) :=
  let rules := (tblLookup policy_rules policy_name).getD []
  let loaded : Except (String × List (String × String)) (List ComplianceRule) :=
    if rules.isEmpty then
      match rule_loader with
      | some loader =>
        match loader policy_name with
        | .ok more => .ok (rules ++ more)
        | .error _ =>
          .error ("Failed to load compliance rules", [("policy", policy_name)])
      | none => .ok rules
    else .ok rules
  match loaded with
  | .error e => .error e
  | .ok rs =>
    let rs := if extra_rules.isEmpty then rs else rs ++ extra_rules
    if rs.isEmpty then
      .error ("No compliance rules defined", [("policy", policy_name)])
    else .ok rs

/-- `ComplianceAuditTool.audit_config` (lines 223-266). -/
def audit_config (policy_rules : List (String × List ComplianceRule))
    (rule_loader : Option (String → Except String (List ComplianceRule)))
    (config_content : String) (policy_name : String)
    (extra_rules : List ComplianceRule) : ToolOutput ComplianceReport :=
  match resolveRules policy_rules rule_loader policy_name extra_rules with
  | .error (m, d) => .fail m d
  | .ok rules =>
    let violations := rules.flatMap (ruleViolations config_content)
    .ok ⟨policy_name, violations.isEmpty, violations⟩

/-! ### Helper lemmas about the audit tool -/

/-- When rule resolution succeeds, `audit_config` returns the report built
from the concatenated per-rule violations. -/
theorem audit_config_ok (pr : List (String × List ComplianceRule))
    (rl : Option (String → Except String (List ComplianceRule)))
    (cc pn : String) (er rules : List ComplianceRule)
    (hres : resolveRules pr rl pn er = .ok rules) :
    audit_config pr rl cc pn er =
      .ok ⟨pn, (rules.flatMap (ruleViolations cc)).isEmpty,
           rules.flatMap (ruleViolations cc)⟩ := by
  unfold audit_config
  rw [hres]

/-- A `forbidden` rule contributes exactly the mapped match list. -/
theorem ruleViolations_forbidden (cc : String) (r : ComplianceRule)
    (hm : r.mode = "forbidden") :
    ruleViolations cc r = (reFindAll r.pattern cc).map
      (fun m => ⟨r.rule_id, r.description, some m, "found_forbidden"⟩) := by
  unfold ruleViolations
  rw [hm]
  by_cases hms : (reFindAll r.pattern cc).isEmpty
  · have h0 : reFindAll r.pattern cc = [] := by
      simpa [List.isEmpty_iff] using hms
    simp [h0]
  · simp [hms]

/-- A `required` rule contributes one violation when unmatched, none
otherwise. -/
theorem ruleViolations_required (cc : String) (r : ComplianceRule)
    (hm : r.mode = "required") :
    ruleViolations cc r =
      (if reFindAll r.pattern cc = []
       then [⟨r.rule_id, r.description, none, "missing_required"⟩] else []) := by
  unfold ruleViolations
  rw [hm]
  by_cases hms : reFindAll r.pattern cc = []
  · simp [hms]
  · simp [hms, List.isEmpty_iff]

/-- A rule whose mode is neither `required` nor `forbidden` contributes no
violations. -/
theorem ruleViolations_other (cc : String) (r : ComplianceRule)
    (h1 : r.mode ≠ "required") (h2 : r.mode ≠ "forbidden") :
    ruleViolations cc r = [] := by
  unfold ruleViolations
  simp [h1, h2]

/-! ### Claim theorems: compliance auditing -/

/-- Claim C2: for every audit of any configuration text against any resolved
non-empty rule set, the returned `ComplianceReport` satisfies
`is_compliant = true` if and only if its violations list is empty. -/
theorem audit_compliant_iff_no_violations
    (pr : List (String × List ComplianceRule))
    (rl : Option (String → Except String (List ComplianceRule)))
    (cc pn : String) (er : List ComplianceRule) (rep : ComplianceReport)
    (h : audit_config pr rl cc pn er = .ok rep) :
    rep.is_compliant = true ↔ rep.violations = [] := by
  unfold audit_config at h
  cases hres : resolveRules pr rl pn er with
  | error e =>
    rw [hres] at h
    obtain ⟨m, d⟩ := e
    exact absurd h (by simp)
  | ok rules =>
    rw [hres] at h
    have hrep : rep =
        ⟨pn, (rules.flatMap (ruleViolations cc)).isEmpty,
         rules.flatMap (ruleViolations cc)⟩ := by
      cases h
      rfl
    rw [hrep]
    simp [List.isEmpty_iff]

def reqRuleW : ComplianceRule :=
  ⟨"R10", "logging must be on", rlit "logging on", "required"⟩

theorem audit_compliant_iff_no_violations_witness :
    (⟨"base", true, []⟩ : ComplianceReport).is_compliant = true ↔
      (⟨"base", true, []⟩ : ComplianceReport).violations = [] :=
  audit_compliant_iff_no_violations [("base", [reqRuleW])] none
    "logging on\nend" "base" [] ⟨"base", true, []⟩ (by decide)

/-- Claim C3: for every rule with mode `forbidden` in an audit, the report
contains exactly one `found_forbidden` violation per non-overlapping match of
the rule's pattern in the configuration text, each carrying the exact matched
text as the violating line, and the per-rule violation count equals the
occurrence count (not deduplicated); the report's violation list is the
concatenation of the per-rule lists. -/
theorem audit_forbidden_violations_per_match
    (pr : List (String × List ComplianceRule))
    (rl : Option (String → Except String (List ComplianceRule)))
    (cc pn : String) (er rules : List ComplianceRule) (r : ComplianceRule)
    (hres : resolveRules pr rl pn er = .ok rules) (hr : r ∈ rules)
    (hm : r.mode = "forbidden") :
    ruleViolations cc r = (reFindAll r.pattern cc).map
      (fun m => ⟨r.rule_id, r.description, some m, "found_forbidden"⟩)
    ∧ (ruleViolations cc r).length = (reFindAll r.pattern cc).length
    ∧ audit_config pr rl cc pn er =
        .ok ⟨pn, (rules.flatMap (ruleViolations cc)).isEmpty,
             rules.flatMap (ruleViolations cc)⟩ := by
  refine ⟨ruleViolations_forbidden cc r hm, ?_, audit_config_ok pr rl cc pn er rules hres⟩
  rw [ruleViolations_forbidden cc r hm]
  simp

def telnetRuleW : ComplianceRule :=
  ⟨"R2", "telnet must not be enabled", rlit "telnet", "forbidden"⟩

def telnetConfigW : String := "line vty\n telnet enabled\nmore telnet here"

theorem audit_forbidden_violations_per_match_witness :
    ruleViolations telnetConfigW telnetRuleW =
      (reFindAll telnetRuleW.pattern telnetConfigW).map
        (fun m => ⟨telnetRuleW.rule_id, telnetRuleW.description, some m,
                   "found_forbidden"⟩)
    ∧ (ruleViolations telnetConfigW telnetRuleW).length =
        (reFindAll telnetRuleW.pattern telnetConfigW).length
    ∧ audit_config [("security", [telnetRuleW])] none telnetConfigW "security" [] =
        .ok ⟨"security",
             ([telnetRuleW].flatMap (ruleViolations telnetConfigW)).isEmpty,
             [telnetRuleW].flatMap (ruleViolations telnetConfigW)⟩ :=
  audit_forbidden_violations_per_match [("security", [telnetRuleW])] none
    telnetConfigW "security" [] [telnetRuleW] telnetRuleW rfl
    (List.mem_singleton.mpr rfl) rfl

/-- Claim C4: for every rule with mode `required` in an audit, the report
contains exactly one `missing_required` violation (with no violating line)
when the pattern has zero matches, and zero violations when it has at least
one match; the per-rule violation count is always 0 or 1. -/
theorem audit_required_zero_or_one_violation
    (pr : List (String × List ComplianceRule))
    (rl : Option (String → Except String (List ComplianceRule)))
    (cc pn : String) (er rules : List ComplianceRule) (r : ComplianceRule)
    (hres : resolveRules pr rl pn er = .ok rules) (hr : r ∈ rules)
    (hm : r.mode = "required") :
    ruleViolations cc r =
      (if reFindAll r.pattern cc = []
       then [⟨r.rule_id, r.description, none, "missing_required"⟩] else [])
    ∧ (ruleViolations cc r).length ≤ 1
    ∧ audit_config pr rl cc pn er =
        .ok ⟨pn, (rules.flatMap (ruleViolations cc)).isEmpty,
             rules.flatMap (ruleViolations cc)⟩ := by
  refine ⟨ruleViolations_required cc r hm, ?_, audit_config_ok pr rl cc pn er rules hres⟩
  rw [ruleViolations_required cc r hm]
  by_cases hz : reFindAll r.pattern cc = [] <;> simp [hz]

def noHttpRuleW : ComplianceRule :=
  ⟨"R1", "http server must be disabled",
   .cat .bol (.cat (rlit "no ip http server") .eol), "required"⟩

theorem audit_required_zero_or_one_violation_witness :
    ruleViolations "hostname R1\nend" noHttpRuleW =
      (if reFindAll noHttpRuleW.pattern "hostname R1\nend" = []
       then [⟨noHttpRuleW.rule_id, noHttpRuleW.description, none,
              "missing_required"⟩] else [])
    ∧ (ruleViolations "hostname R1\nend" noHttpRuleW).length ≤ 1
    ∧ audit_config [("hardening", [noHttpRuleW])] none "hostname R1\nend"
        "hardening" [] =
        .ok ⟨"hardening",
             ([noHttpRuleW].flatMap (ruleViolations "hostname R1\nend")).isEmpty,
             [noHttpRuleW].flatMap (ruleViolations "hostname R1\nend")⟩ :=
  audit_required_zero_or_one_violation [("hardening", [noHttpRuleW])] none
    "hostname R1\nend" "hardening" [] [noHttpRuleW] noHttpRuleW rfl
    (List.mem_singleton.mpr rfl) rfl

/-- Claim C5: if the policy name is unregistered, no rule loader is
configured, and no extra rules are supplied, `audit_config` fails with a
"No compliance rules defined" input error rather than returning a
vacuously-compliant report. -/
theorem audit_empty_ruleset_fails
    (pr : List (String × List ComplianceRule)) (cc pn : String)
    (hun : tblLookup pr pn = none) :
    audit_config pr none cc pn [] =
      .fail "No compliance rules defined" [("policy", pn)] := by
  unfold audit_config resolveRules
  rw [hun]
  simp

theorem audit_empty_ruleset_fails_witness :
    audit_config [] none "hostname R1" "unregistered-policy" [] =
      .fail "No compliance rules defined" [("policy", "unregistered-policy")] :=
  audit_empty_ruleset_fails [] "hostname R1" "unregistered-policy" rfl

/-- Claim C10: a rule whose mode is neither `required` nor `forbidden`
contributes zero violations regardless of the configuration text, and an
audit whose resolved rules all carry unrecognized modes returns a compliant
report. -/
theorem audit_unknown_mode_no_violations
    (cc : String) (r : ComplianceRule)
    (h1 : r.mode ≠ "required") (h2 : r.mode ≠ "forbidden") :
    ruleViolations cc r = []
    ∧ ∀ (pr : List (String × List ComplianceRule))
        (rl : Option (String → Except String (List ComplianceRule)))
        (pn : String) (er rules : List ComplianceRule),
        resolveRules pr rl pn er = .ok rules →
        (∀ r' ∈ rules, r'.mode ≠ "required" ∧ r'.mode ≠ "forbidden") →
        audit_config pr rl cc pn er = .ok ⟨pn, true, []⟩ := by
  refine ⟨ruleViolations_other cc r h1 h2, ?_⟩
  intro pr rl pn er rules hres hall
  have hflat : rules.flatMap (ruleViolations cc) = [] := by
    rw [List.flatMap_eq_nil_iff]
    intro r' hr'
    exact ruleViolations_other cc r' (hall r' hr').1 (hall r' hr').2
  have := audit_config_ok pr rl cc pn er rules hres
  rw [hflat] at this
  simpa using this

def auditRuleW : ComplianceRule := ⟨"R7", "advisory only", rlit "snmp", "audit"⟩

theorem audit_unknown_mode_no_violations_witness :
    ruleViolations "snmp community public" auditRuleW = []
    ∧ ∀ (pr : List (String × List ComplianceRule))
        (rl : Option (String → Except String (List ComplianceRule)))
        (pn : String) (er rules : List ComplianceRule),
        resolveRules pr rl pn er = .ok rules →
        (∀ r' ∈ rules, r'.mode ≠ "required" ∧ r'.mode ≠ "forbidden") →
        audit_config pr rl "snmp community public" pn er = .ok ⟨pn, true, []⟩ :=
  audit_unknown_mode_no_violations "snmp community public" auditRuleW
    (by decide) (by decide)

/-! ### Snapshot store (`VersionControlTool`) and backup coordinator
(`ConfigBackupTool`) -/

/-- Outcome of a configuration backup operation (`ConfigBackupResult`).
Commit identifiers are modelled as naturals drawn from a counter. -/
structure ConfigBackupResult where
  device : String
  path : String
  commit_hash : Option Nat
deriving DecidableEq, Repr

/-- State of the git repository backing `VersionControlTool`: the committed
tree (`head`), the staged tree (`index`), the untracked working-tree paths,
and the next commit identifier. -/
structure GitState where
  head : List (String × String)
  index : List (String × String)
  untracked : List String
  nextId : Nat
deriving DecidableEq, Repr

/-- State touched by `commit_config`: the configuration files on disk and the
optional git repository (`None` when GitPython is unavailable or the
repository could not be loaded). -/
structure EngineState where
  fs : List (String × String)
  git : Option GitState
deriving DecidableEq, Repr

/-- Extensional equality of two trees viewed as maps (duplicate keys shadow,
as in a dictionary). -/
def tblEq (x y : List (String × String)) : Bool :=
  (x.all fun p => tblLookup y p.1 == tblLookup x p.1) &&
  (y.all fun p => tblLookup x p.1 == tblLookup y p.1)

/-- Canonical on-disk path of a device's snapshot
(`repo_path / "configs" / f"{device}.cfg"`, relative to the repository). -/
def cfgPath (device : String) : String := "configs/" ++ device ++ ".cfg"

/-- `VersionControlTool.commit_config` (lines 59-80).  The file is always
written; with a repository present the file is staged, and a commit is
created only when `is_dirty(index=True, working_tree=False,
untracked_files=True)` holds — that is, when the staged tree differs from
`HEAD` or an untracked file exists.  `addRaises` / `commitRaises` model a
`GitCommandError` raised by `index.add` / `index.commit`; both are caught,
leaving the commit hash `None`.  The filesystem write itself is total in
this model (a raised filesystem error would propagate, not return). -/
def commit_config (st : EngineState) (device config_content commit_message : String)
    (addRaises commitRaises : Bool) :
    ToolOutput ConfigBackupResult × EngineState :=
  let path := cfgPath device
  let fs := tblInsert st.fs path config_content
  match st.git with
  | none => (.ok ⟨device, path, none⟩, ⟨fs, none⟩)
  | some g =>
    if addRaises then
      (.ok ⟨device, path, none⟩, ⟨fs, some g⟩)
    else
      let idx := tblInsert g.index path config_content
      let dirty := !(tblEq idx g.head) || !(g.untracked.isEmpty)
      if dirty then
        if commitRaises then
          (.ok ⟨device, path, none⟩, ⟨fs, some { g with index := idx }⟩)
        else
          (.ok ⟨device, path, some g.nextId⟩,
           ⟨fs, some { g with index := idx, head := idx, nextId := g.nextId + 1 }⟩)
      else
        (.ok ⟨device, path, none⟩, ⟨fs, some { g with index := idx }⟩)

/-- What the injected configuration fetcher hands back: either a raw value or
a `ToolOutput` envelope. -/
inductive Fetched where
  | raw (v : PyVal)
  | out (o : ToolOutput PyVal)
deriving DecidableEq, Repr

/-- Model of `json.dumps(value, indent=2, sort_keys=True)`: some canonical
deterministic text rendering of the structured value (its exact shape is
irrelevant to the engine). -/
def jsonDumps (v : Nat) : String := "json-canonical-" ++ toString v

/-- `ConfigBackupTool.backup_config` (lines 97-114).  A failing fetcher
envelope is propagated; `None` content fails; non-text content is serialized
(injected serializer, else `json.dumps`); then the snapshot store commits
with the generated `AUTOBACKUP` message. -/
def backup_config (config_fetcher : String → Fetched)
    (serializer : Option (Nat → String)) (st : EngineState)
    (device ts : String) (addRaises commitRaises : Bool) :
    ToolOutput ConfigBackupResult × EngineState :=
  let commit := fun (content : String) =>
    commit_config st device content
      ("AUTOBACKUP: Configuration backup for " ++ device ++ " @ " ++ ts ++ "Z")
      addRaises commitRaises
  let fromContent := fun (v : PyVal) =>
    match v with
    | .vnone => (ToolOutput.fail "No configuration content returned"
                   [("device", device)], st)
    | .vstr s => commit s
    | .vother x =>
      commit (match serializer with | none => jsonDumps x | some f => f x)
  match config_fetcher device with
  | .out (.fail m d) => (.fail m d, st)
  | .out (.ok data) => fromContent data
  | .raw v => fromContent v

/-! ### Helper lemmas about trees -/

/-- Re-inserting the same binding is a no-op. -/
theorem tblInsert_idem {α : Type} (t : List (String × α)) (k : String) (v : α) :
    tblInsert (tblInsert t k v) k v = tblInsert t k v := by
  induction t with
  | nil => simp [tblInsert]
  | cons hd tl ih =>
    obtain ⟨k', v'⟩ := hd
    by_cases hk : k' = k
    · simp [tblInsert, hk]
    · simp [tblInsert, hk, ih]

/-- `tblEq` is reflexive: a tree is always extensionally equal to itself. -/
theorem tblEq_refl (x : List (String × String)) : tblEq x x = true := by
  unfold tblEq
  simp

/-! ### Claim theorems: snapshot store and backup coordinator -/

/-- Claim C8: provided the filesystem write succeeds, `commit_config` returns
success with the snapshot written; with no versioned backend the version
identifier is `None`, and when the backend's staging or commit raises, the
error is caught and the call still returns success with a `None` version
identifier. -/
theorem commit_config_success_null_hash_degraded
    (st : EngineState) (dev content msg : String) (aR cR : Bool) :
    (st.git = none →
      commit_config st dev content msg aR cR =
        (.ok ⟨dev, cfgPath dev, none⟩,
         ⟨tblInsert st.fs (cfgPath dev) content, none⟩))
    ∧ (∀ g, st.git = some g → (aR = true ∨ cR = true) →
        ∃ g', commit_config st dev content msg aR cR =
          (.ok ⟨dev, cfgPath dev, none⟩,
           ⟨tblInsert st.fs (cfgPath dev) content, some g'⟩)) := by
  constructor
  · intro hg
    unfold commit_config
    rw [hg]
  · intro g hg hraise
    unfold commit_config
    rw [hg]
    cases haR : aR with
    | true => exact ⟨g, rfl⟩
    | false =>
      have hcR : cR = true := by
        rcases hraise with h | h
        · rw [haR] at h; cases h
        · exact h
      subst hcR
      simp only [Bool.false_eq_true, if_false]
      by_cases hd :
          (!(tblEq (tblInsert g.index (cfgPath dev) content) g.head) ||
           !(g.untracked.isEmpty)) = true
      · rw [if_pos hd]
        exact ⟨{ g with index := tblInsert g.index (cfgPath dev) content }, rfl⟩
      · rw [if_neg hd]
        exact ⟨{ g with index := tblInsert g.index (cfgPath dev) content }, rfl⟩

theorem commit_config_success_null_hash_degraded_witness :
    ((⟨[], none⟩ : EngineState).git = none →
      commit_config ⟨[], none⟩ "r1" "hostname r1" "msg" false false =
        (.ok ⟨"r1", cfgPath "r1", none⟩,
         ⟨tblInsert [] (cfgPath "r1") "hostname r1", none⟩))
    ∧ (∀ g, (⟨[], none⟩ : EngineState).git = some g →
        (false = true ∨ false = true) →
        ∃ g', commit_config ⟨[], none⟩ "r1" "hostname r1" "msg" false false =
          (.ok ⟨"r1", cfgPath "r1", none⟩,
           ⟨tblInsert [] (cfgPath "r1") "hostname r1", some g'⟩)) :=
  commit_config_success_null_hash_degraded ⟨[], none⟩ "r1" "hostname r1" "msg"
    false false

/-- Claim C9 as stated is false: with a versioned backend present, committing
identical content twice does not always return a `None` version identifier on
the second call.  With an untracked file in the working tree,
`is_dirty(untracked_files=True)` stays true, so the second call also creates
a commit and returns its (non-`None`) identifier. -/
theorem commit_twice_untracked_nonnull :
    (commit_config
        (commit_config ⟨[], some ⟨[], [], ["stray.txt"], 0⟩⟩
          "r1" "hostname r1" "m1" false false).2
        "r1" "hostname r1" "m2" false false).1 =
      .ok ⟨"r1", "configs/r1.cfg", some 1⟩ := by decide

/-- Claim C9 (amended): with a versioned backend present whose working tree
has no untracked files, and no backend errors raised, committing identical
content for the same device twice in succession succeeds on both calls and
the second call skips version creation, returning a `None` version
identifier. -/
theorem commit_twice_clean_second_null
    (st : EngineState) (g : GitState) (dev content m1 m2 : String)
    (hg : st.git = some g) (hu : g.untracked = []) :
    (∃ h, (commit_config st dev content m1 false false).1 =
        .ok ⟨dev, cfgPath dev, h⟩)
    ∧ (commit_config (commit_config st dev content m1 false false).2
        dev content m2 false false).1 = .ok ⟨dev, cfgPath dev, none⟩ := by
  unfold commit_config
  rw [hg]
  simp only [Bool.false_eq_true, if_false, hu, List.isEmpty_nil, Bool.not_true,
    Bool.or_false]
  by_cases hd : tblEq (tblInsert g.index (cfgPath dev) content) g.head = true
  · rw [if_neg (by simp [hd])]
    refine ⟨⟨none, rfl⟩, ?_⟩
    simp only []
    rw [tblInsert_idem]
    rw [if_neg (by simp [hd, hu])]
  · rw [if_pos (by simp [hd])]
    refine ⟨⟨some g.nextId, rfl⟩, ?_⟩
    simp only []
    rw [tblInsert_idem]
    rw [if_neg (by simp [tblEq_refl, hu])]

theorem commit_twice_clean_second_null_witness :
    (∃ h, (commit_config ⟨[], some ⟨[], [], [], 5⟩⟩ "r1" "hostname r1" "m1"
        false false).1 = .ok ⟨"r1", cfgPath "r1", h⟩)
    ∧ (commit_config
        (commit_config ⟨[], some ⟨[], [], [], 5⟩⟩ "r1" "hostname r1" "m1"
          false false).2
        "r1" "hostname r1" "m2" false false).1 =
      .ok ⟨"r1", cfgPath "r1", none⟩ :=
  commit_twice_clean_second_null ⟨[], some ⟨[], [], [], 5⟩⟩ ⟨[], [], [], 5⟩
    "r1" "hostname r1" "m1" "m2" rfl rfl

/-- Claim C1 as stated is false: a fetcher returning the empty string does
not make `backup_config` fail — the `None` check does not catch `""`, so an
empty snapshot is written and the call returns success. -/
theorem backup_empty_string_succeeds :
    backup_config (fun _ => .raw (.vstr "")) none ⟨[], none⟩ "r1"
      "2026-10-12T00:00:00" false false =
      (.ok ⟨"r1", "configs/r1.cfg", none⟩, ⟨[("configs/r1.cfg", "")], none⟩) := by
  decide

/-- Claim C1 (amended): if the injected fetcher returns `None` (directly or
as the data of a successful result), `backup_config` fails with the
"No configuration content returned" input error and leaves the state
untouched; an empty string is not rejected — it is written as an empty
snapshot and the call returns success. -/
theorem backup_config_none_content_fails
    (fetcher : String → Fetched) (ser : Option (Nat → String))
    (st : EngineState) (device ts : String) (aR cR : Bool)
    (h : fetcher device = .raw .vnone ∨ fetcher device = .out (.ok .vnone)) :
    backup_config fetcher ser st device ts aR cR =
      (.fail "No configuration content returned" [("device", device)], st) := by
  unfold backup_config
  rcases h with h | h <;> rw [h]

theorem backup_config_none_content_fails_witness :
    backup_config (fun _ => .raw .vnone) none ⟨[], none⟩ "r7"
      "2026-10-12T00:00:00" false false =
      (.fail "No configuration content returned" [("device", "r7")],
       ⟨[], none⟩) :=
  backup_config_none_content_fails (fun _ => .raw .vnone) none ⟨[], none⟩
    "r7" "2026-10-12T00:00:00" false false (Or.inl rfl)

/-! ### Diffing (model of `difflib.SequenceMatcher` / `unified_diff`)

`ConfigDriftDetectionTool.detect_drift` calls
`difflib.unified_diff(baseline_lines, running_lines, fromfile="baseline",
tofile="running", lineterm="")`.  The matcher below follows difflib with
`isjunk=None`; the autojunk popularity heuristic (active only for sequences
of at least 200 lines) is not modelled. -/

/-- `j2len.get(j, 0)` on the dictionary of diagonal run lengths (most recent
binding wins, as in a Python dict). -/
def dget (d : List (Nat × Nat)) (j : Nat) : Nat :=
  match d.find? (fun p => p.1 == j) with
  | some p => p.2
  | none => 0

/-- `k = j2len.get(j-1, 0) + 1`: the length of the common run ending at
`(i, j)` given the runs of the previous row. -/
def kval (old : List (Nat × Nat)) (j : Nat) : Nat :=
  (if j = 0 then 0 else dget old (j - 1)) + 1

/-- Best-match update of `find_longest_match`'s inner loop (the `if k >
bestsize` branch).  `i + 1 - k` equals Python's `i - k + 1`; `k ≤ i + 1` and
`k ≤ j + 1` hold in every reachable state, so the truncated subtraction is
exact. -/
def bstep (old : List (Nat × Nat)) (i : Nat) (best : Nat × Nat × Nat)
    (j : Nat) : Nat × Nat × Nat :=
  let k := kval old j
  if best.2.2 < k then (i + 1 - k, j + 1 - k, k) else best

/-- One inner-loop iteration: update the best match and record
`newj2len[j] = k`. -/
def innerStep (old : List (Nat × Nat)) (i : Nat)
    (acc : (Nat × Nat × Nat) × List (Nat × Nat)) (j : Nat) :
    (Nat × Nat × Nat) × List (Nat × Nat) :=
  (bstep old i acc.1 j, (j, kval old j) :: acc.2)

/-- `b2j.get(a[i], [])` restricted to `blo ≤ j < bhi` (ascending, as difflib
iterates with `continue`/`break`). -/
def jcand (a b : List String) (blo bhi : Nat) (i : Nat) : List Nat :=
  (List.range b.length).filter fun j =>
    decide (blo ≤ j) && decide (j < bhi) && (b.get? j == a.get? i)

/-- One outer-loop iteration of `find_longest_match` (row `i`): run the inner
loop over the candidate `j`s, starting from an empty `newj2len`. -/
def flmOuter (a b : List String) (blo bhi : Nat)
    (st : (Nat × Nat × Nat) × List (Nat × Nat)) (i : Nat) :
    (Nat × Nat × Nat) × List (Nat × Nat) :=
  (jcand a b blo bhi i).foldl (innerStep st.2 i) (st.1, [])

/-- The left extension loop of `find_longest_match` (`isjunk=None`, so the
junk variants never fire).  Both compared indices are in range in every
reachable call; the `isSome` guard merely keeps the out-of-range case inert. -/
def extLeft (a b : List String) (alo blo : Nat) :
    Nat → Nat × Nat × Nat → Nat × Nat × Nat
  | 0, st => st
  | f+1, (bi, bj, bs) =>
    if alo < bi ∧ blo < bj ∧ a.get? (bi - 1) = b.get? (bj - 1)
        ∧ (a.get? (bi - 1)).isSome
    then extLeft a b alo blo f (bi - 1, bj - 1, bs + 1)
    else (bi, bj, bs)

/-- The right extension loop of `find_longest_match`. -/
def extRight (a b : List String) (ahi bhi : Nat) :
    Nat → Nat × Nat × Nat → Nat × Nat × Nat
  | 0, st => st
  | f+1, (bi, bj, bs) =>
    if bi + bs < ahi ∧ bj + bs < bhi ∧ a.get? (bi + bs) = b.get? (bj + bs)
        ∧ (a.get? (bi + bs)).isSome
    then extRight a b ahi bhi f (bi, bj, bs + 1)
    else (bi, bj, bs)

/-- `SequenceMatcher.find_longest_match(alo, ahi, blo, bhi)` with
`isjunk=None`: the dynamic scan over rows, then the two extension loops.
Returns `(besti, bestj, bestsize)`. -/
def findLongestMatch (a b : List String) (alo ahi blo bhi : Nat) :
    Nat × Nat × Nat :=
  let core := ((List.range' alo (ahi - alo)).foldl (flmOuter a b blo bhi)
    ((alo, blo, 0), [])).1
  let l := extLeft a b alo blo (core.1 + 1) core
  extRight a b ahi bhi (a.length + b.length + 1) l

/-- The work-queue loop of `get_matching_blocks`.  difflib pops LIFO; the
traversal order is immaterial because the collected blocks are sorted
afterwards, so the queue is consumed head-first here.  The fuel passed by
`getMatchingBlocks` exceeds the number of possible subproblems. -/
def mbQueue (a b : List String) :
    Nat → List (Nat × Nat × Nat × Nat) → List (Nat × Nat × Nat) →
    List (Nat × Nat × Nat)
  | 0, _, acc => acc
  | _+1, [], acc => acc
  | fuel+1, (alo, ahi, blo, bhi) :: queue, acc =>
    let x := findLongestMatch a b alo ahi blo bhi
    if x.2.2 ≠ 0 then
      let q1 := if alo < x.1 ∧ blo < x.2.1 then [(alo, x.1, blo, x.2.1)] else []
      let q2 := if x.1 + x.2.2 < ahi ∧ x.2.1 + x.2.2 < bhi
                then [(x.1 + x.2.2, ahi, x.2.1 + x.2.2, bhi)] else []
      mbQueue a b fuel (q1 ++ q2 ++ queue) (x :: acc)
    else mbQueue a b fuel queue acc

/-- Lexicographic order on match triples (Python tuple comparison, used by
`matching_blocks.sort()`). -/
def tripleLe (x y : Nat × Nat × Nat) : Bool :=
  decide (x.1 < y.1) ||
  (decide (x.1 = y.1) &&
   (decide (x.2.1 < y.2.1) ||
    (decide (x.2.1 = y.2.1) && decide (x.2.2 ≤ y.2.2))))

/-- Insertion into a sorted block list. -/
def insertSorted (x : Nat × Nat × Nat) :
    List (Nat × Nat × Nat) → List (Nat × Nat × Nat)
  | [] => [x]
  | y :: ys => if tripleLe x y then x :: y :: ys else y :: insertSorted x ys

/-- `matching_blocks.sort()` (insertion sort; stability is irrelevant since
equal triples are identical). -/
def sortBlocks (l : List (Nat × Nat × Nat)) : List (Nat × Nat × Nat) :=
  l.foldr insertSorted []

/-- The adjacent-block coalescing pass of `get_matching_blocks` (starting
from the virtual `(0, 0, 0)` accumulator). -/
def coalesce : Nat → Nat → Nat → List (Nat × Nat × Nat) → List (Nat × Nat × Nat)
  | i1, j1, k1, [] => if k1 ≠ 0 then [(i1, j1, k1)] else []
  | i1, j1, k1, (i2, j2, k2) :: rest =>
    if i1 + k1 = i2 ∧ j1 + k1 = j2 then coalesce i1 j1 (k1 + k2) rest
    else (if k1 ≠ 0 then [(i1, j1, k1)] else []) ++ coalesce i2 j2 k2 rest

/-- `SequenceMatcher.get_matching_blocks()`: recursive longest-match
decomposition, sorted, coalesced, with the `(la, lb, 0)` sentinel. -/
def getMatchingBlocks (a b : List String) : List (Nat × Nat × Nat) :=
  let blocks := sortBlocks
    (mbQueue a b ((a.length + b.length + 2) * 2) [(0, a.length, 0, b.length)] [])
  coalesce 0 0 0 blocks ++ [(a.length, b.length, 0)]

/-- One entry of `get_opcodes()` output: a tagged range pair. -/
structure Opcode where
  tag : String
  i1 : Nat
  i2 : Nat
  j1 : Nat
  j2 : Nat
deriving DecidableEq, Repr

/-- The loop of `get_opcodes()`: gaps between matching blocks become
`replace`/`delete`/`insert`, blocks become `equal`. -/
def opcodeLoop : Nat → Nat → List (Nat × Nat × Nat) → List Opcode
  | _, _, [] => []
  | i, j, (ai, bj, size) :: rest =>
    let tg := if i < ai ∧ j < bj then "replace"
              else if i < ai then "delete"
              else if j < bj then "insert" else ""
    (if tg ≠ "" then [⟨tg, i, ai, j, bj⟩] else []) ++
    (if size ≠ 0 then [⟨"equal", ai, ai + size, bj, bj + size⟩] else []) ++
    opcodeLoop (ai + size) (bj + size) rest

/-- `SequenceMatcher.get_opcodes()`. -/
def getOpcodes (a b : List String) : List Opcode :=
  opcodeLoop 0 0 (getMatchingBlocks a b)

/-- `get_grouped_opcodes`: shrink a leading `equal` opcode to the last `n`
context lines. -/
def trimHead (n : Nat) : List Opcode → List Opcode
  | [] => []
  | c :: rest =>
    if c.tag = "equal"
    then ⟨c.tag, max c.i1 (c.i2 - n), c.i2, max c.j1 (c.j2 - n), c.j2⟩ :: rest
    else c :: rest

/-- `get_grouped_opcodes`: shrink a trailing `equal` opcode to the first `n`
context lines. -/
def trimLast (n : Nat) (codes : List Opcode) : List Opcode :=
  match codes.getLast? with
  | some c =>
    if c.tag = "equal"
    then codes.dropLast ++
      [⟨c.tag, c.i1, min c.i2 (c.i1 + n), c.j1, min c.j2 (c.j1 + n)⟩]
    else codes
  | none => codes

/-- The grouping loop of `get_grouped_opcodes`: split around large `equal`
runs; a final group that is a single `equal` opcode is dropped. -/
def groupLoop (n : Nat) : List Opcode → List Opcode → List (List Opcode)
  | group, [] =>
    if group.isEmpty ∨
        (group.length = 1 ∧ (group.headD ⟨"", 0, 0, 0, 0⟩).tag = "equal")
    then [] else [group]
  | group, c :: rest =>
    if c.tag = "equal" ∧ n + n < c.i2 - c.i1 then
      (group ++ [⟨c.tag, c.i1, min c.i2 (c.i1 + n), c.j1, min c.j2 (c.j1 + n)⟩]) ::
        groupLoop n [⟨c.tag, max c.i1 (c.i2 - n), c.i2, max c.j1 (c.j2 - n), c.j2⟩]
          rest
    else groupLoop n (group ++ [c]) rest

/-- `SequenceMatcher.get_grouped_opcodes(n)` (difflib's default `n = 3` is
what `unified_diff` passes). -/
def getGroupedOpcodes (a b : List String) (n : Nat) : List (List Opcode) :=
  let codes := getOpcodes a b
  let codes := if codes.isEmpty then [⟨"equal", 0, 1, 0, 1⟩] else codes
  let codes := trimHead n codes
  let codes := trimLast n codes
  groupLoop n [] codes

/-- `difflib._format_range_unified`. -/
def formatRangeUnified (start stop : Nat) : String :=
  let beginning := start + 1
  let length := stop - start
  if length = 1 then toString beginning
  else toString (if length = 0 then beginning - 1 else beginning) ++ "," ++
    toString length

/-- The per-opcode body lines of a unified-diff hunk. -/
def opcodeLines (a b : List String) (op : Opcode) : List String :=
  if op.tag = "equal" then
    ((a.drop op.i1).take (op.i2 - op.i1)).map (fun l => " " ++ l)
  else
    (if op.tag = "replace" ∨ op.tag = "delete"
     then ((a.drop op.i1).take (op.i2 - op.i1)).map (fun l => "-" ++ l) else []) ++
    (if op.tag = "replace" ∨ op.tag = "insert"
     then ((b.drop op.j1).take (op.j2 - op.j1)).map (fun l => "+" ++ l) else [])

/-- A hunk of `unified_diff`: the `@@` header and the body lines. -/
def groupLines (a b : List String) (g : List Opcode) : List String :=
  match g.head?, g.getLast? with
  | some first, some last =>
    ("@@ -" ++ formatRangeUnified first.i1 last.i2 ++ " +" ++
      formatRangeUnified first.j1 last.j2 ++ " @@") :: g.flatMap (opcodeLines a b)
  | _, _ => []

/-- `difflib.unified_diff(a, b, fromfile, tofile, lineterm="")` as a list of
lines: file headers once (only when at least one group exists), then the
hunks. -/
def unifiedDiff (a b : List String) (fromfile tofile : String) : List String :=
  let groups := getGroupedOpcodes a b 3
  if groups.isEmpty then []
  else ("--- " ++ fromfile) :: ("+++ " ++ tofile) ::
    groups.flatMap (groupLines a b)

/-! ### Drift detection (`ConfigDriftDetectionTool`) -/

/-- Python `str()` as applied to fetched data (`str(running.data)`); the
rendering of non-text objects is abstract. -/
def pyStr : PyVal → String
  | .vstr s => s
  | .vnone => "None"
  | .vother v => "pyobj-" ++ toString v

/-- Split a character list at newline characters (every separator produces a
boundary, so `n` newlines yield `n + 1` pieces). -/
def splitOnNl : List Char → List (List Char)
  | [] => [[]]
  | c :: rest =>
    if c = '\n' then [] :: splitOnNl rest
    else
      match splitOnNl rest with
      | [] => [[c]]
      | h :: t => (c :: h) :: t

/-- Python `str.splitlines()` restricted to `\n` separators (the only line
terminator the engine's configuration texts use): the empty string has no
lines, and a trailing newline does not produce a trailing empty line. -/
def splitlines (s : String) : List String :=
  if s.data = [] then []
  else
    let parts := (splitOnNl s.data).map String.mk
    if s.data.getLast? = some '\n' then parts.dropLast else parts

/-- `ConfigDriftDetectionTool._filter_lines` (lines 174-182): with no ignore
patterns the lines pass through; otherwise every line matched by some ignore
pattern (`pattern.search`) is dropped. -/
def filterLines (pats : List Regex) (lines : List String) : List String :=
  if pats.isEmpty then lines
  else lines.filter fun line => !(pats.any fun p => reSearch p line)

/-- Structured result of a drift detection run (`ConfigDriftOutput`). -/
structure ConfigDriftOutput where
  device : String
  is_drifted : Bool
  diff : Option String
deriving DecidableEq, Repr

/-- `ConfigDriftDetectionTool._resolve` (lines 167-172). -/
def resolveFetch (value : Fetched) (label : String) : ToolOutput PyVal :=
  match value with
  | .out o => o
  | .raw .vnone => .fail (label ++ " not available") []
  | .raw v => .ok v

/-- The drift criterion applied to one diff line:
`line.startswith(('+', '-')) and not line.startswith(('+++', '---'))`. -/
def isChangeLine (l : String) : Bool :=
  (l.startsWith "+" || l.startsWith "-") &&
  !(l.startsWith "+++" || l.startsWith "---")

/-- `ConfigDriftDetectionTool.detect_drift` (lines 139-165). -/
def detect_drift (running_fetcher baseline_loader : String → Fetched)
    (ignore_patterns : List Regex) (device : String) :
    ToolOutput ConfigDriftOutput :=
  match resolveFetch (running_fetcher device) "running_config" with
  | .fail m d => .fail m d
  | .ok rdata =>
    match resolveFetch (baseline_loader device) "baseline_config" with
    | .fail m d => .fail m d
    | .ok bdata =>
      let running_lines := filterLines ignore_patterns (splitlines (pyStr rdata))
      let baseline_lines := filterLines ignore_patterns (splitlines (pyStr bdata))
      let diff_lines := unifiedDiff baseline_lines running_lines "baseline" "running"
      let is_drifted := diff_lines.any isChangeLine
      .ok ⟨device, is_drifted,
           if is_drifted then some (String.intercalate "\n" diff_lines) else none⟩

/-! ### The diff of a sequence against itself is empty

`detect_drift` reports no drift when the filtered line lists coincide; this
requires showing that the modelled `SequenceMatcher` finds the full-range
match on identical inputs, so that `unified_diff` yields no groups. -/

/-- Recording step for `newj2len` (the second component of `innerStep`). -/
def nstep (old : List (Nat × Nat)) (d : List (Nat × Nat)) (j : Nat) :
    List (Nat × Nat) :=
  (j, kval old j) :: d

theorem dget_cons (j k : Nat) (d : List (Nat × Nat)) (j' : Nat) :
    dget ((j, k) :: d) j' = if j' = j then k else dget d j' := by
  unfold dget
  simp only [List.find?]
  by_cases h : j' = j
  · subst h
    simp
  · have : (j == j') = false := by
      simp [Ne.symm h]
    simp [this, h]

theorem foldl_innerStep_fst (old : List (Nat × Nat)) (i : Nat) :
    ∀ (js : List Nat) (acc : (Nat × Nat × Nat) × List (Nat × Nat)),
      (js.foldl (innerStep old i) acc).1 = js.foldl (bstep old i) acc.1 := by
  intro js
  induction js with
  | nil => intro acc; rfl
  | cons x xs ih => intro acc; exact ih (innerStep old i acc x)

theorem foldl_innerStep_snd (old : List (Nat × Nat)) (i : Nat) :
    ∀ (js : List Nat) (acc : (Nat × Nat × Nat) × List (Nat × Nat)),
      (js.foldl (innerStep old i) acc).2 = js.foldl (nstep old) acc.2 := by
  intro js
  induction js with
  | nil => intro acc; rfl
  | cons x xs ih => intro acc; exact ih (innerStep old i acc x)

theorem dget_nfold (old : List (Nat × Nat)) :
    ∀ (js : List Nat) (d0 : List (Nat × Nat)) (j : Nat),
      dget (js.foldl (nstep old) d0) j =
        if j ∈ js then kval old j else dget d0 j := by
  intro js
  induction js with
  | nil => intro d0 j; simp
  | cons x xs ih =>
    intro d0 j
    have step : (x :: xs).foldl (nstep old) d0 =
        xs.foldl (nstep old) ((x, kval old x) :: d0) := rfl
    rw [step, ih]
    by_cases hmem : j ∈ xs
    · simp [hmem]
    · rw [if_neg hmem, dget_cons]
      by_cases hx : j = x
      · subst hx
        simp
      · simp [hx, hmem]

theorem bfold_const (old : List (Nat × Nat)) (i : Nat) :
    ∀ (js : List Nat) (best : Nat × Nat × Nat),
      (∀ j ∈ js, kval old j ≤ best.2.2) →
      js.foldl (bstep old i) best = best := by
  intro js
  induction js with
  | nil => intro best _; rfl
  | cons x xs ih =>
    intro best h
    have hx : kval old x ≤ best.2.2 := h x (List.mem_cons_self x xs)
    have hstep : bstep old i best x = best := by
      unfold bstep
      rw [if_neg (by omega)]
    rw [List.foldl_cons, hstep]
    exact ih best (fun j hj => h j (List.mem_cons_of_mem x hj))

theorem kval_diag (old : List (Nat × Nat)) (i : Nat)
    (hd : i ≠ 0 → dget old (i - 1) = i) : kval old i = i + 1 := by
  unfold kval
  by_cases hi : i = 0
  · subst hi; simp
  · rw [if_neg hi, hd hi]

theorem kval_le_of_bound (old : List (Nat × Nat)) (i : Nat)
    (hb : ∀ j, dget old j ≤ min i (j + 1)) (j : Nat) :
    kval old j ≤ min (i + 1) (j + 1) := by
  unfold kval
  by_cases hj : j = 0
  · subst hj; simp
  · rw [if_neg hj]
    have := hb (j - 1)
    omega

theorem kval_lt_le (old : List (Nat × Nat)) (i : Nat)
    (hb : ∀ j, dget old j ≤ min i (j + 1)) (j : Nat) (hj : j < i) :
    kval old j ≤ i := by
  have := kval_le_of_bound old i hb j
  omega

theorem jcand_self_split (a : List String) (i : Nat) (hi : i < a.length) :
    ∃ L R, jcand a a 0 a.length i = L ++ i :: R
      ∧ (∀ j ∈ L, j < i) ∧ (∀ j ∈ R, i < j) := by
  unfold jcand
  obtain ⟨m, hm⟩ : ∃ m, a.length = i + m + 1 := ⟨a.length - i - 1, by omega⟩
  have hsplit : List.range a.length =
      List.range' 0 i ++ i :: List.range' (i + 1) m := by
    rw [List.range_eq_range']
    calc List.range' 0 a.length
        = List.range' 0 (m + 1 + i) := by rw [hm]; congr 1; omega
      _ = List.range' 0 i ++ List.range' (0 + 1 * i) (m + 1) :=
          (List.range'_append 0 i (m + 1) 1).symm
      _ = List.range' 0 i ++ i :: List.range' (i + 1) m := by
          rw [show 0 + 1 * i = i by omega, List.range'_succ]
  rw [hsplit, List.filter_append, List.filter_cons_of_pos (by simp [hi])]
  refine ⟨_, _, rfl, ?_, ?_⟩
  · intro j hj
    have := List.mem_range'.mp (List.mem_of_mem_filter hj)
    omega
  · intro j hj
    have := List.mem_range'.mp (List.mem_of_mem_filter hj)
    omega

theorem dget_nil (j : Nat) : dget [] j = 0 := rfl

theorem flmOuter_self (a : List String) (i : Nat) (hi : i < a.length)
    (st : (Nat × Nat × Nat) × List (Nat × Nat))
    (h1 : st.1 = (0, 0, i))
    (hd : i ≠ 0 → dget st.2 (i - 1) = i)
    (hb : ∀ j, dget st.2 j ≤ min i (j + 1)) :
    (flmOuter a a 0 a.length st i).1 = (0, 0, i + 1)
    ∧ (i + 1 ≠ 0 → dget (flmOuter a a 0 a.length st i).2 (i + 1 - 1) = i + 1)
    ∧ (∀ j, dget (flmOuter a a 0 a.length st i).2 j ≤ min (i + 1) (j + 1)) := by
  obtain ⟨L, R, hLR, hL, hR⟩ := jcand_self_split a i hi
  unfold flmOuter
  rw [hLR]
  refine ⟨?_, ?_, ?_⟩
  · rw [foldl_innerStep_fst, List.foldl_append, h1]
    have hLfold : L.foldl (bstep st.2 i) (0, 0, i) = (0, 0, i) := by
      apply bfold_const
      intro j hj
      exact kval_lt_le st.2 i hb j (hL j hj)
    rw [hLfold, List.foldl_cons]
    have hstep : bstep st.2 i (0, 0, i) i = (0, 0, i + 1) := by
      unfold bstep
      simp only [kval_diag st.2 i hd]
      rw [if_pos (by omega)]
      simp
    rw [hstep]
    apply bfold_const
    intro j hj
    have := kval_le_of_bound st.2 i hb j
    simp only []
    omega
  · intro _
    rw [foldl_innerStep_snd, dget_nfold]
    simp only [Nat.add_sub_cancel]
    rw [if_pos (List.mem_append_right L (List.mem_cons_self i R))]
    exact kval_diag st.2 i hd
  · intro j
    rw [foldl_innerStep_snd, dget_nfold]
    by_cases hmem : j ∈ L ++ i :: R
    · rw [if_pos hmem]
      exact kval_le_of_bound st.2 i hb j
    · rw [if_neg hmem, dget_nil]
      omega

theorem flm_core_self (a : List String) :
    ∀ i, i ≤ a.length →
      ((List.range i).foldl (flmOuter a a 0 a.length) ((0, 0, 0), [])).1 = (0, 0, i)
      ∧ (i ≠ 0 →
          dget ((List.range i).foldl (flmOuter a a 0 a.length) ((0, 0, 0), [])).2
            (i - 1) = i)
      ∧ (∀ j,
          dget ((List.range i).foldl (flmOuter a a 0 a.length) ((0, 0, 0), [])).2 j
            ≤ min i (j + 1)) := by
  intro i
  induction i with
  | zero =>
    intro _
    refine ⟨rfl, by simp, ?_⟩
    intro j
    simp [dget_nil]
  | succ k ih =>
    intro hk
    obtain ⟨H1, H2, H3⟩ := ih (by omega)
    rw [List.range_succ, List.foldl_append]
    simp only [List.foldl_cons, List.foldl_nil]
    exact flmOuter_self a k (by omega) _ H1 H2 H3

theorem findLongestMatch_self (a : List String) :
    findLongestMatch a a 0 a.length 0 a.length = (0, 0, a.length) := by
  unfold findLongestMatch
  have hcore :
      ((List.range' 0 (a.length - 0)).foldl (flmOuter a a 0 a.length)
        ((0, 0, 0), [])).1 = (0, 0, a.length) := by
    rw [Nat.sub_zero, ← List.range_eq_range']
    exact (flm_core_self a a.length le_rfl).1
  simp only [hcore]
  have hleft : extLeft a a 0 0 ((0, 0, a.length).1 + 1) (0, 0, a.length) =
      (0, 0, a.length) := by
    simp [extLeft]
  rw [hleft]
  have : a.length + a.length + 1 = (a.length + a.length) + 1 := rfl
  rw [this]
  simp [extRight]

theorem mbQueue_self (a : List String) :
    mbQueue a a ((a.length + a.length + 2) * 2) [(0, a.length, 0, a.length)] [] =
      if a.length = 0 then [] else [(0, 0, a.length)] := by
  have hfuel : (a.length + a.length + 2) * 2 = a.length * 4 + 3 + 1 := by omega
  rw [hfuel, mbQueue, findLongestMatch_self]
  by_cases hn : a.length = 0
  · rw [if_neg (by simp [hn]), if_pos hn]
    have h2 : a.length * 4 + 3 = a.length * 4 + 2 + 1 := by omega
    rw [h2, mbQueue]
  · rw [if_pos (by simpa using hn), if_neg hn]
    rw [if_neg (by simp), if_neg (by simp)]
    have h2 : a.length * 4 + 3 = a.length * 4 + 2 + 1 := by omega
    simp only [List.nil_append]
    rw [h2, mbQueue]

theorem getMatchingBlocks_self (a : List String) :
    getMatchingBlocks a a =
      if a.length = 0 then [(0, 0, 0)]
      else [(0, 0, a.length), (a.length, a.length, 0)] := by
  unfold getMatchingBlocks
  rw [mbQueue_self]
  by_cases hn : a.length = 0
  · rw [if_pos hn, if_pos hn]
    simp [sortBlocks, coalesce, hn]
  · rw [if_neg hn, if_neg hn]
    simp [sortBlocks, insertSorted, coalesce, hn]

theorem getOpcodes_self (a : List String) :
    getOpcodes a a =
      if a.length = 0 then [] else [⟨"equal", 0, a.length, 0, a.length⟩] := by
  unfold getOpcodes
  rw [getMatchingBlocks_self]
  by_cases hn : a.length = 0
  · rw [if_pos hn, if_pos hn]
    simp [opcodeLoop]
  · rw [if_neg hn, if_neg hn]
    simp [opcodeLoop, hn]

theorem getGroupedOpcodes_self (a : List String) :
    getGroupedOpcodes a a 3 = [] := by
  unfold getGroupedOpcodes
  rw [getOpcodes_self]
  by_cases hn : a.length = 0
  · rw [if_pos hn]
    rfl
  · rw [if_neg hn]
    have htrim : trimLast 3 (trimHead 3 [⟨"equal", 0, a.length, 0, a.length⟩]) =
        [⟨"equal", a.length - 3, min a.length (a.length - 3 + 3),
          a.length - 3, min a.length (a.length - 3 + 3)⟩] := by
      simp [trimHead, trimLast]
    simp only [List.isEmpty_cons, Bool.false_eq_true, if_false, htrim]
    rw [groupLoop]
    rw [if_neg (by rintro ⟨_, h⟩; dsimp only at h; omega)]
    simp [groupLoop]

theorem unifiedDiff_self (a : List String) (f t : String) :
    unifiedDiff a a f t = [] := by
  unfold unifiedDiff
  rw [getGroupedOpcodes_self]
  simp

/-! ### Claim theorems: drift detection -/

/-- Claim C6: ignore-pattern filtering is applied to both the running and the
baseline line lists before diffing; whenever the filtered running lines equal
the filtered baseline lines, `detect_drift` reports `is_drifted = false` and
a null diff. -/
theorem detect_drift_equal_filtered_no_drift
    (rf bl : String → Fetched) (ig : List Regex) (dev : String) (rd bd : PyVal)
    (hr : resolveFetch (rf dev) "running_config" = .ok rd)
    (hb : resolveFetch (bl dev) "baseline_config" = .ok bd)
    (heq : filterLines ig (splitlines (pyStr rd)) =
           filterLines ig (splitlines (pyStr bd))) :
    detect_drift rf bl ig dev = .ok ⟨dev, false, none⟩ := by
  unfold detect_drift
  rw [hr, hb]
  simp only [heq, unifiedDiff_self, List.any_nil, Bool.false_eq_true, if_false]

def runningFetchW : String → Fetched :=
  fun _ => .raw (.vstr "hostname R1\nntp server 10.0.0.2")

def baselineFetchW : String → Fetched :=
  fun _ => .raw (.vstr "hostname R1\nntp server 10.0.0.1")

def ntpIgnoreW : Regex := .cat .bol (rlit "ntp server")

theorem detect_drift_equal_filtered_no_drift_witness :
    detect_drift runningFetchW baselineFetchW [ntpIgnoreW] "r1" =
      .ok ⟨"r1", false, none⟩ :=
  detect_drift_equal_filtered_no_drift runningFetchW baselineFetchW [ntpIgnoreW]
    "r1" (.vstr "hostname R1\nntp server 10.0.0.2")
    (.vstr "hostname R1\nntp server 10.0.0.1") rfl rfl (by decide)

/-- Claim C7: when both fetches succeed, `is_drifted` is true iff the unified
diff of the filtered baseline against the filtered running lines contains at
least one added or removed line (a line starting with `+` or `-`, excluding
the `+++`/`---` header lines), and the report's diff text is present iff
`is_drifted` is true. -/
theorem detect_drift_flag_iff_change_line
    (rf bl : String → Fetched) (ig : List Regex) (dev : String) (rd bd : PyVal)
    (hr : resolveFetch (rf dev) "running_config" = .ok rd)
    (hb : resolveFetch (bl dev) "baseline_config" = .ok bd) :
    ∃ rep, detect_drift rf bl ig dev = .ok rep
      ∧ (rep.is_drifted = true ↔
          ∃ l ∈ unifiedDiff (filterLines ig (splitlines (pyStr bd)))
              (filterLines ig (splitlines (pyStr rd))) "baseline" "running",
            isChangeLine l = true)
      ∧ (rep.diff.isSome ↔ rep.is_drifted = true) := by
  unfold detect_drift
  rw [hr, hb]
  refine ⟨_, rfl, ?_, ?_⟩
  · exact List.any_eq_true
  · by_cases h : (unifiedDiff (filterLines ig (splitlines (pyStr bd)))
        (filterLines ig (splitlines (pyStr rd))) "baseline" "running").any
          isChangeLine = true
    · simp [h]
    · simp [h]

theorem detect_drift_flag_iff_change_line_witness :
    ∃ rep, detect_drift (fun _ => .raw (.vstr "hostname R1\nntp server 10.0.0.2"))
        (fun _ => .raw (.vstr "hostname R1\nntp server 10.0.0.1")) [] "r1" =
        .ok rep
      ∧ (rep.is_drifted = true ↔
          ∃ l ∈ unifiedDiff
              (filterLines [] (splitlines
                (pyStr (.vstr "hostname R1\nntp server 10.0.0.1"))))
              (filterLines [] (splitlines
                (pyStr (.vstr "hostname R1\nntp server 10.0.0.2"))))
              "baseline" "running",
            isChangeLine l = true)
      ∧ (rep.diff.isSome ↔ rep.is_drifted = true) :=
  detect_drift_flag_iff_change_line _ _ [] "r1"
    (.vstr "hostname R1\nntp server 10.0.0.2")
    (.vstr "hostname R1\nntp server 10.0.0.1") rfl rfl
